import Mathlib
set_option maxRecDepth 4000

/-!
Verification development for the sohappy terminal-sharing relay.

The repository consists of a relay server (Fastify + socket.io), a tmux
capture poller (`TmuxCapture`), a crypto wrapper module around NaCl
(`encrypt` / `decrypt` / pairing codes), and a producer-side session
controller (`EncryptedWSClient` and the daemon manager).  This file gives a
shallow embedding of those parts in Lean: pure functions mirror the source
functions, stateful handlers become explicit state-passing functions from a
session/state value and a message payload to the new state plus the list of
emitted socket messages.
-/

namespace Sohappy

/-- Byte strings (JS `Uint8Array`) are modelled as lists of naturals; a list
is a valid byte string when every entry is below 256. -/
def ValidBytes (bs : List Nat) : Prop := ∀ b ∈ bs, b < 256

instance (bs : List Nat) : Decidable (ValidBytes bs) :=
  List.decidableBAll _ bs

/-! ### Base64 (tweetnacl-util `encodeBase64` / `decodeBase64`)

Modelled from the spec: "Public keys and envelopes are serialized in a
printable ASCII encoding (base64 without line breaks) when carried in JSON
fields."  The library `tweetnacl-util` is external to the repository; the
functions below implement standard base64 over byte lists. -/

/-- Character of a 6-bit group in the standard base64 alphabet. -/
def charOfSextet (n : Nat) : Char :=
  if n < 26 then Char.ofNat (65 + n)
  else if n < 52 then Char.ofNat (71 + n)
  else if n < 62 then Char.ofNat (n - 4)
  else if n = 62 then '+'
  else '/'

/-- Inverse alphabet lookup: 6-bit value of a base64 character. -/
def sextetOfChar (ch : Char) : Nat :=
  let n := ch.toNat
  if 65 ≤ n ∧ n ≤ 90 then n - 65
  else if 97 ≤ n ∧ n ≤ 122 then n - 71
  else if 48 ≤ n ∧ n ≤ 57 then n + 4
  else if n = 43 then 62
  else if n = 47 then 63
  else 0

/-- Base64-encode a byte list, three input bytes per four output characters,
padding with `=`. -/
def b64EncodeBytes : List Nat → List Char
  | [] => []
  | [a] =>
      [charOfSextet (a / 4), charOfSextet ((a % 4) * 16), '=', '=']
  | [a, b] =>
      [charOfSextet (a / 4), charOfSextet ((a % 4) * 16 + b / 16),
       charOfSextet ((b % 16) * 4), '=']
  | a :: b :: d :: rest =>
      charOfSextet (a / 4) :: charOfSextet ((a % 4) * 16 + b / 16) ::
      charOfSextet ((b % 16) * 4 + d / 64) :: charOfSextet (d % 64) ::
      b64EncodeBytes rest

/-- Base64-decode a character list, four characters per three bytes,
honouring `=` padding.  Trailing garbage shorter than a chunk is ignored,
as is anything after a padded chunk. -/
def b64DecodeChars : List Char → List Nat
  | c1 :: c2 :: c3 :: c4 :: rest =>
      if c3 = '=' then
        [sextetOfChar c1 * 4 + sextetOfChar c2 / 16]
      else if c4 = '=' then
        [sextetOfChar c1 * 4 + sextetOfChar c2 / 16,
         (sextetOfChar c2 % 16) * 16 + sextetOfChar c3 / 4]
      else
        (sextetOfChar c1 * 4 + sextetOfChar c2 / 16) ::
        ((sextetOfChar c2 % 16) * 16 + sextetOfChar c3 / 4) ::
        ((sextetOfChar c3 % 4) * 64 + sextetOfChar c4) ::
        b64DecodeChars rest
  | _ => []

theorem sextetOfChar_charOfSextet_fin :
    ∀ n : Fin 64, sextetOfChar (charOfSextet n.1) = n.1 := by decide

theorem charOfSextet_ne_pad_fin : ∀ n : Fin 64, charOfSextet n.1 ≠ '=' := by
  decide

theorem sextetOfChar_charOfSextet {n : Nat} (h : n < 64) :
    sextetOfChar (charOfSextet n) = n :=
  sextetOfChar_charOfSextet_fin ⟨n, h⟩

theorem charOfSextet_ne_pad {n : Nat} (h : n < 64) : charOfSextet n ≠ '=' :=
  charOfSextet_ne_pad_fin ⟨n, h⟩

theorem b64Decode_pad2 (c1 c2 : Char) :
    b64DecodeChars [c1, c2, '=', '='] =
      [sextetOfChar c1 * 4 + sextetOfChar c2 / 16] := by
  simp [b64DecodeChars]

theorem b64Decode_pad1 (c1 c2 c3 : Char) (hc : c3 ≠ '=') :
    b64DecodeChars [c1, c2, c3, '='] =
      [sextetOfChar c1 * 4 + sextetOfChar c2 / 16,
       (sextetOfChar c2 % 16) * 16 + sextetOfChar c3 / 4] := by
  simp [b64DecodeChars, hc]

theorem b64Decode_full (c1 c2 c3 c4 : Char) (rest : List Char)
    (h3 : c3 ≠ '=') (h4 : c4 ≠ '=') :
    b64DecodeChars (c1 :: c2 :: c3 :: c4 :: rest) =
      (sextetOfChar c1 * 4 + sextetOfChar c2 / 16) ::
      ((sextetOfChar c2 % 16) * 16 + sextetOfChar c3 / 4) ::
      ((sextetOfChar c3 % 4) * 64 + sextetOfChar c4) ::
      b64DecodeChars rest := by
  simp [b64DecodeChars, h3, h4]

theorem b64_roundtrip :
    ∀ bs : List Nat, ValidBytes bs → b64DecodeChars (b64EncodeBytes bs) = bs := by
  intro bs
  induction bs using b64EncodeBytes.induct with
  | case1 =>
      intro _; rfl
  | case2 a =>
      intro h
      have ha : a < 256 := h a (by simp)
      show b64DecodeChars [_, _, '=', '='] = [a]
      rw [b64Decode_pad2,
        sextetOfChar_charOfSextet (by omega),
        sextetOfChar_charOfSextet (by omega)]
      simp only [List.cons.injEq, and_true]
      omega
  | case3 a b =>
      intro h
      have ha : a < 256 := h a (by simp)
      have hb : b < 256 := h b (by simp)
      show b64DecodeChars [_, _, _, '='] = [a, b]
      rw [b64Decode_pad1 _ _ _ (charOfSextet_ne_pad (by omega)),
        sextetOfChar_charOfSextet (by omega),
        sextetOfChar_charOfSextet (by omega),
        sextetOfChar_charOfSextet (by omega)]
      simp only [List.cons.injEq, and_true]
      omega
  | case4 a b d rest ih =>
      intro h
      have ha : a < 256 := h a (by simp)
      have hb : b < 256 := h b (by simp)
      have hd : d < 256 := h d (by simp)
      have hrest : ValidBytes rest := by
        intro x hx; exact h x (by simp [hx])
      show b64DecodeChars (_ :: _ :: _ :: _ :: b64EncodeBytes rest) = _
      rw [b64Decode_full _ _ _ _ _
          (charOfSextet_ne_pad (by omega)) (charOfSextet_ne_pad (by omega)),
        sextetOfChar_charOfSextet (by omega),
        sextetOfChar_charOfSextet (by omega),
        sextetOfChar_charOfSextet (by omega),
        sextetOfChar_charOfSextet (by omega),
        ih hrest]
      simp only [List.cons.injEq, eq_self_iff_true, and_true]
      omega

/-- Mirror of tweetnacl-util `encodeBase64`: byte list to base64 string. -/
def encodeBase64 (bs : List Nat) : String := ⟨b64EncodeBytes bs⟩

/-- Mirror of tweetnacl-util `decodeBase64`: base64 string to byte list. -/
def decodeBase64 (s : String) : List Nat := b64DecodeChars s.data

theorem decodeBase64_encodeBase64 {bs : List Nat} (h : ValidBytes bs) :
    decodeBase64 (encodeBase64 bs) = bs :=
  b64_roundtrip bs h

/-! ### UTF-8 (tweetnacl-util `decodeUTF8` / `encodeUTF8`)

Modelled from the spec: string payloads are carried as byte strings through
the AEAD; the conversion functions live in the external `tweetnacl-util`
library.  `decodeUTF8` turns a string into its UTF-8 bytes, `encodeUTF8`
turns UTF-8 bytes back into a string. -/

/-- UTF-8 bytes of a single code point. -/
def utf8EncodeChar (n : Nat) : List Nat :=
  if n < 128 then [n]
  else if n < 2048 then [192 + n / 64, 128 + n % 64]
  else if n < 65536 then [224 + n / 4096, 128 + (n / 64) % 64, 128 + n % 64]
  else [240 + n / 262144, 128 + (n / 4096) % 64, 128 + (n / 64) % 64,
        128 + n % 64]

/-- Mirror of tweetnacl-util `decodeUTF8`: string to UTF-8 byte list. -/
def decodeUTF8 (s : String) : List Nat :=
  (s.data.map (fun ch => utf8EncodeChar ch.toNat)).flatten

/-- Decoding step: consume one UTF-8-encoded code point from the front of a
byte list, returning the code point and the remaining bytes. -/
def utf8Step : List Nat → Option (Nat × List Nat)
  | [] => none
  | b1 :: rest =>
      if b1 < 128 then some (b1, rest)
      else if b1 < 224 then
        match rest with
        | b2 :: rest2 => some ((b1 - 192) * 64 + (b2 - 128), rest2)
        | [] => none
      else if b1 < 240 then
        match rest with
        | b2 :: b3 :: rest3 =>
            some ((b1 - 224) * 4096 + (b2 - 128) * 64 + (b3 - 128), rest3)
        | _ => none
      else
        match rest with
        | b2 :: b3 :: b4 :: rest4 =>
            some ((b1 - 240) * 262144 + (b2 - 128) * 4096 + (b3 - 128) * 64 +
              (b4 - 128), rest4)
        | _ => none

theorem utf8Step_shrink :
    ∀ {l : List Nat} {c : Nat} {l' : List Nat},
      utf8Step l = some (c, l') → l'.length < l.length := by
  intro l c l' h
  cases l with
  | nil => simp [utf8Step] at h
  | cons b1 rest =>
    simp only [utf8Step] at h
    split at h
    · cases h; simp
    · split at h
      · cases rest with
        | nil => cases h
        | cons b2 rest2 => cases h; simp; omega
      · split at h
        · cases rest with
          | nil => cases h
          | cons b2 rest2 =>
            cases rest2 with
            | nil => cases h
            | cons b3 rest3 => cases h; simp; omega
        · cases rest with
          | nil => cases h
          | cons b2 rest2 =>
            cases rest2 with
            | nil => cases h
            | cons b3 rest3 =>
              cases rest3 with
              | nil => cases h
              | cons b4 rest4 => cases h; simp; omega

/-- Decode a UTF-8 byte list into the list of its code points (best-effort:
a malformed tail yields the empty remainder, mirroring a total decoder). -/
def utf8DecodeBytes (l : List Nat) : List Nat :=
  match h : utf8Step l with
  | none => []
  | some (c, l') => c :: utf8DecodeBytes l'
termination_by l.length
decreasing_by exact utf8Step_shrink h

/-- Mirror of tweetnacl-util `encodeUTF8`: UTF-8 byte list to string. -/
def encodeUTF8 (bs : List Nat) : String :=
  ⟨(utf8DecodeBytes bs).map Char.ofNat⟩

theorem utf8EncodeChar_valid {n : Nat} (h : n < 1114112) :
    ValidBytes (utf8EncodeChar n) := by
  intro b hb
  unfold utf8EncodeChar at hb
  split at hb
  · simp at hb; omega
  · split at hb
    · simp at hb; rcases hb with hb | hb <;> omega
    · split at hb
      · simp at hb; rcases hb with hb | hb | hb <;> omega
      · simp at hb; rcases hb with hb | hb | hb | hb <;> omega

theorem char_toNat_lt (c : Char) : c.toNat < 1114112 := by
  rcases c.valid with h | h
  · exact Nat.lt_trans h (by omega)
  · exact h.2

theorem decodeUTF8_valid (s : String) : ValidBytes (decodeUTF8 s) := by
  intro b hb
  unfold decodeUTF8 at hb
  rw [List.mem_flatten] at hb
  obtain ⟨l, hl, hbl⟩ := hb
  rw [List.mem_map] at hl
  obtain ⟨ch, _, rfl⟩ := hl
  exact utf8EncodeChar_valid (char_toNat_lt ch) b hbl

theorem utf8DecodeBytes_of_step {l : List Nat} {c : Nat} {l' : List Nat}
    (h : utf8Step l = some (c, l')) :
    utf8DecodeBytes l = c :: utf8DecodeBytes l' := by
  rw [utf8DecodeBytes]
  split
  · next heq => rw [h] at heq; cases heq
  · next c' l'' heq =>
      rw [h] at heq
      cases heq
      rfl

theorem utf8Step_encodeChar (n : Nat) (h : n < 1114112) (rest : List Nat) :
    utf8Step (utf8EncodeChar n ++ rest) = some (n, rest) := by
  unfold utf8EncodeChar
  split
  · next h1 =>
      simp only [List.cons_append, List.nil_append, utf8Step, if_pos h1]
  · next h1 =>
    split
    · next h2 =>
        simp only [List.cons_append, List.nil_append, utf8Step]
        rw [if_neg (by omega), if_pos (by omega)]
        have e : (192 + n / 64 - 192) * 64 + (128 + n % 64 - 128) = n := by
          omega
        rw [e]
    · next h2 =>
      split
      · next h3 =>
          simp only [List.cons_append, List.nil_append, utf8Step]
          rw [if_neg (by omega), if_neg (by omega), if_pos (by omega)]
          have e : (224 + n / 4096 - 224) * 4096 +
              (128 + n / 64 % 64 - 128) * 64 + (128 + n % 64 - 128) = n := by
            omega
          rw [e]
      · next h3 =>
          simp only [List.cons_append, List.nil_append, utf8Step]
          rw [if_neg (by omega), if_neg (by omega), if_neg (by omega)]
          have e : (240 + n / 262144 - 240) * 262144 +
              (128 + n / 4096 % 64 - 128) * 4096 +
              (128 + n / 64 % 64 - 128) * 64 + (128 + n % 64 - 128) = n := by
            omega
          rw [e]

theorem utf8DecodeBytes_encodeChar (n : Nat) (h : n < 1114112)
    (rest : List Nat) :
    utf8DecodeBytes (utf8EncodeChar n ++ rest) = n :: utf8DecodeBytes rest :=
  utf8DecodeBytes_of_step (utf8Step_encodeChar n h rest)

theorem utf8DecodeBytes_nil : utf8DecodeBytes [] = [] := by
  rw [utf8DecodeBytes]
  split
  · rfl
  · next heq => exact absurd heq (by simp [utf8Step])

theorem utf8DecodeBytes_chars :
    ∀ cs : List Char,
      utf8DecodeBytes ((cs.map (fun ch => utf8EncodeChar ch.toNat)).flatten) =
        cs.map Char.toNat := by
  intro cs
  induction cs with
  | nil => simpa using utf8DecodeBytes_nil
  | cons ch rest ih =>
      simp only [List.map_cons, List.flatten_cons]
      rw [utf8DecodeBytes_encodeChar ch.toNat (char_toNat_lt ch), ih]

theorem encodeUTF8_decodeUTF8 (s : String) : encodeUTF8 (decodeUTF8 s) = s := by
  unfold encodeUTF8 decodeUTF8
  rw [utf8DecodeBytes_chars]
  cases s with
  | mk cs =>
      simp only [List.map_map]
      congr 1
      have e : (Char.ofNat ∘ Char.toNat) = id := by
        funext c
        exact Char.ofNat_toNat c
      rw [e, List.map_id]

/-! ### Secretbox (NaCl XSalsa20-Poly1305)

Modelled from the spec: "AEAD: XSalsa20-Poly1305-equivalent secretbox
construction; 24-byte random nonces; authentication tag verified on open.
Decryption failure returns null."  The AEAD primitive itself lives in the
external `tweetnacl` library; the keystream and tag functions below stand in
for XSalsa20 and Poly1305.  What the embedding preserves is the shape of the
construction: mask the message with a key/nonce keystream, prepend a tag
computed from key, nonce and ciphertext, and have `open` recompute and
verify the tag, returning `none` on mismatch. -/

/-- Keystream byte at position `i` for the given key and nonce. -/
def keystreamByte (key nonce : List Nat) (i : Nat) : Nat :=
  (key.foldl (fun a b => a * 131 + b + 1) 7 +
   nonce.foldl (fun a b => a * 137 + b + 1) 11 + i * 97) % 256

/-- XOR a byte list against the keystream starting at position `i`. -/
def maskBytes (key nonce : List Nat) : Nat → List Nat → List Nat
  | _, [] => []
  | i, b :: rest =>
      (b ^^^ keystreamByte key nonce i) :: maskBytes key nonce (i + 1) rest

/-- Sixteen tag bytes computed from key, nonce and ciphertext. -/
def tagBytes (key nonce ct : List Nat) : List Nat :=
  (List.range 16).map (fun i =>
    (ct.foldl (fun a b => a * 251 + b + 1) (i * 59) +
     key.foldl (fun a b => a * 131 + b + 1) 3 +
     nonce.foldl (fun a b => a * 137 + b + 1) 5) % 256)

/-- Seal a message: tag followed by the masked message. -/
def secretbox (m nonce key : List Nat) : List Nat :=
  tagBytes key nonce (maskBytes key nonce 0 m) ++ maskBytes key nonce 0 m

/-- Open a sealed message: verify the tag, unmask on success, `none` on
failure. -/
def secretboxOpen (c nonce key : List Nat) : Option (List Nat) :=
  if c.take 16 = tagBytes key nonce (c.drop 16) ∧ 16 ≤ c.length then
    some (maskBytes key nonce 0 (c.drop 16))
  else none

theorem keystreamByte_lt (key nonce : List Nat) (i : Nat) :
    keystreamByte key nonce i < 256 :=
  Nat.mod_lt _ (by omega)

theorem maskBytes_involutive (key nonce : List Nat) :
    ∀ (m : List Nat) (i : Nat),
      maskBytes key nonce i (maskBytes key nonce i m) = m := by
  intro m
  induction m with
  | nil => intro i; rfl
  | cons b rest ih =>
      intro i
      simp only [maskBytes, ih (i + 1)]
      rw [Nat.xor_cancel_right]

theorem maskBytes_valid (key nonce : List Nat) :
    ∀ (m : List Nat) (i : Nat), ValidBytes m →
      ValidBytes (maskBytes key nonce i m) := by
  intro m
  induction m with
  | nil => intro i _; intro b hb; cases hb
  | cons b rest ih =>
      intro i h x hx
      simp only [maskBytes, List.mem_cons] at hx
      rcases hx with rfl | hx
      · have hb : b < 256 := h b (by simp)
        have hk : keystreamByte key nonce i < 256 := keystreamByte_lt key nonce i
        have : b ^^^ keystreamByte key nonce i < 2 ^ 8 :=
          Nat.xor_lt_two_pow (by omega) (by omega)
        omega
      · exact ih (i + 1) (fun y hy => h y (by simp [hy])) x hx

theorem maskBytes_length (key nonce : List Nat) :
    ∀ (m : List Nat) (i : Nat), (maskBytes key nonce i m).length = m.length := by
  intro m
  induction m with
  | nil => intro i; rfl
  | cons b rest ih => intro i; simp [maskBytes, ih (i + 1)]

theorem tagBytes_length (key nonce ct : List Nat) :
    (tagBytes key nonce ct).length = 16 := by
  simp [tagBytes]

theorem tagBytes_valid (key nonce ct : List Nat) :
    ValidBytes (tagBytes key nonce ct) := by
  intro b hb
  simp only [tagBytes, List.mem_map] at hb
  obtain ⟨i, _, rfl⟩ := hb
  exact Nat.mod_lt _ (by omega)

theorem secretbox_valid {m : List Nat} (nonce key : List Nat)
    (hm : ValidBytes m) : ValidBytes (secretbox m nonce key) := by
  intro b hb
  simp only [secretbox, List.mem_append] at hb
  rcases hb with hb | hb
  · exact tagBytes_valid key nonce _ b hb
  · exact maskBytes_valid key nonce m 0 hm b hb

theorem secretboxOpen_secretbox (m nonce key : List Nat) :
    secretboxOpen (secretbox m nonce key) nonce key = some m := by
  unfold secretboxOpen secretbox
  rw [show (16 : Nat) =
      (tagBytes key nonce (maskBytes key nonce 0 m)).length from
      (tagBytes_length key nonce _).symm,
    List.take_left, List.drop_left]
  rw [if_pos]
  · rw [maskBytes_involutive]
  · refine ⟨rfl, ?_⟩
    rw [List.length_append, tagBytes_length]
    omega

/-! ### Envelopes: `encrypt`, `decrypt`, `decryptToString`

These mirror the repository's crypto module
(`packages/crypto`, re-exported in both the CLI and the web client): the
source `encrypt` accepts a string or a byte string, draws a random 24-byte
nonce, seals with `nacl.secretbox` and base64-encodes nonce and ciphertext.
The nonce is passed explicitly here, standing for the random draw. -/

structure EncryptedMessage where
  nonce : String
  ciphertext : String
deriving DecidableEq, Repr

/-- Mirror of `encrypt` applied to a byte-string message. -/
def encryptBytes (message nonce sharedSecret : List Nat) : EncryptedMessage :=
  { nonce := encodeBase64 nonce,
    ciphertext := encodeBase64 (secretbox message nonce sharedSecret) }

/-- Mirror of `encrypt` applied to a string message: the string is first
converted to its UTF-8 bytes. -/
def encrypt (message : String) (nonce sharedSecret : List Nat) :
    EncryptedMessage :=
  encryptBytes (decodeUTF8 message) nonce sharedSecret

/-- Mirror of `decrypt`: base64-decode nonce and ciphertext, then open the
box; `none` models the source's `null`. -/
def decrypt (encrypted : EncryptedMessage) (sharedSecret : List Nat) :
    Option (List Nat) :=
  secretboxOpen (decodeBase64 encrypted.ciphertext)
    (decodeBase64 encrypted.nonce) sharedSecret

/-- Mirror of `decryptToString`: decrypt, then decode the bytes as UTF-8;
`none` propagates. -/
def decryptToString (encrypted : EncryptedMessage) (sharedSecret : List Nat) :
    Option String :=
  (decrypt encrypted sharedSecret).map encodeUTF8

theorem decrypt_encryptBytes {m nonce : List Nat} (key : List Nat)
    (hm : ValidBytes m) (hn : ValidBytes nonce) :
    decrypt (encryptBytes m nonce key) key = some m := by
  unfold decrypt encryptBytes
  simp only
  rw [decodeBase64_encodeBase64 (secretbox_valid nonce key hm),
    decodeBase64_encodeBase64 hn, secretboxOpen_secretbox]

theorem decryptToString_encrypt (s : String) {nonce : List Nat}
    (key : List Nat) (hn : ValidBytes nonce) :
    decryptToString (encrypt s nonce key) key = some s := by
  unfold decryptToString encrypt
  rw [decrypt_encryptBytes key (decodeUTF8_valid s) hn]
  simp [encodeUTF8_decodeUTF8]

/-- C3: for every message (byte string `m` or string `str`) and every
32-byte shared secret `key`, `decrypt (encrypt m key) key` returns the bytes
of `m` (non-null), and `decryptToString (encrypt str key) key` returns `str`
for a string message, for any nonce chosen during encryption. -/
theorem c3_decrypt_encrypt_roundtrip (m nonce key : List Nat) (str : String)
    (hm : ValidBytes m) (hn : ValidBytes nonce) (hk : key.length = 32) :
    decrypt (encryptBytes m nonce key) key = some m ∧
    decryptToString (encrypt str nonce key) key = some str :=
  ⟨decrypt_encryptBytes key hm hn, decryptToString_encrypt str key hn⟩

/-- Sample 24-byte nonce for concrete evaluation. -/
def sampleNonce : List Nat := List.range 24

/-- Sample 32-byte shared secret for concrete evaluation. -/
def sampleKey : List Nat := List.range 32

theorem c3_decrypt_encrypt_roundtrip_witness :
    ValidBytes [104, 105] ∧ ValidBytes sampleNonce ∧ sampleKey.length = 32 ∧
    (decrypt (encryptBytes [104, 105] sampleNonce sampleKey) sampleKey =
        some [104, 105] ∧
      decryptToString (encrypt "hi" sampleNonce sampleKey) sampleKey =
        some "hi") :=
  ⟨by decide, by decide, by decide,
    c3_decrypt_encrypt_roundtrip [104, 105] sampleNonce sampleKey "hi"
      (by decide) (by decide) (by decide)⟩

/-! ### Pairing codes

Mirrors `generatePairingCode` / `parsePairingCode` / `encodePairingCode`
from the crypto module.  The JSON runtime functions (`JSON.parse`,
`JSON.stringify`) are external to the repository; parsing is therefore
modelled on the parse result: `none` stands for a `JSON.parse` failure, and
a `PairingJson` record with optional fields stands for a parsed object whose
fields may be absent (`undefined`).  JS truthiness of the field values is
what the source checks. -/

structure PairingCode where
  sessionId : String
  publicKey : String
  timestamp : Int
deriving DecidableEq, Repr

/-- A JSON field value as relevant to pairing codes. -/
inductive JsValue
  | str (s : String)
  | num (n : Int)
deriving DecidableEq, Repr

/-- JS truthiness of a field value: empty strings and zero are falsy. -/
def JsValue.truthy : JsValue → Bool
  | .str s => !(s == "")
  | .num n => !(n == 0)

/-- A parsed pairing-code object; `none` fields are absent (`undefined`). -/
structure PairingJson where
  sessionId : Option JsValue
  publicKey : Option JsValue
  timestamp : Option JsValue
deriving DecidableEq, Repr

/-- Truthiness of an optional field: an absent field is falsy. -/
def truthyOpt : Option JsValue → Bool
  | none => false
  | some v => v.truthy

/-- Mirror of `parsePairingCode`, applied to the result of `JSON.parse`
(`none` = parse failure): return the parsed object when all three fields
are truthy, otherwise null. -/
def parsePairingCode (parsed : Option PairingJson) : Option PairingJson :=
  match parsed with
  | none => none
  | some p =>
      if truthyOpt p.sessionId && truthyOpt p.publicKey &&
          truthyOpt p.timestamp then
        some p
      else none

/-- Modelled from the spec: `encodePairingCode` is `JSON.stringify`, and
`JSON.parse` of its output returns the same object (a guarantee of the
external JS runtime); this function composes the two, mapping a pairing
code to its parsed JSON object with all three fields present. -/
def pairingJsonOf (c : PairingCode) : PairingJson :=
  { sessionId := some (.str c.sessionId),
    publicKey := some (.str c.publicKey),
    timestamp := some (.num c.timestamp) }

/-- All three pairing fields are present on the parsed object. -/
def allFieldsPresent (p : PairingJson) : Prop :=
  p.sessionId.isSome ∧ p.publicKey.isSome ∧ p.timestamp.isSome

instance (p : PairingJson) : Decidable (allFieldsPresent p) := by
  unfold allFieldsPresent
  infer_instance

/-- C9 counterexample: a pairing code whose three fields are all present but
whose timestamp is `0` is rejected by `parsePairingCode`, so
`parsePairingCode (encodePairingCode c) = c` fails and field presence does
not suffice for acceptance. -/
theorem c9_parse_pairing_counterexample :
    allFieldsPresent (pairingJsonOf ⟨"s", "pk", 0⟩) ∧
      parsePairingCode (some (pairingJsonOf ⟨"s", "pk", 0⟩)) = none := by
  decide

/-- C9 (amended): `parsePairingCode` returns the object exactly when the
input is valid JSON (a parse result exists) and all three fields
`sessionId`, `publicKey`, `timestamp` are present with truthy values
(non-empty strings, non-zero number); and parsing back an encoded pairing
code returns it whenever `sessionId` and `publicKey` are non-empty and
`timestamp` is non-zero. -/
theorem c9_parse_pairing_amended (parsed : Option PairingJson)
    (c : PairingCode) (hs : c.sessionId ≠ "") (hp : c.publicKey ≠ "")
    (ht : c.timestamp ≠ 0) :
    ((parsePairingCode parsed).isSome ↔
      ∃ p, parsed = some p ∧ truthyOpt p.sessionId = true ∧
        truthyOpt p.publicKey = true ∧ truthyOpt p.timestamp = true) ∧
    parsePairingCode (some (pairingJsonOf c)) = some (pairingJsonOf c) := by
  constructor
  · cases parsed with
    | none => simp [parsePairingCode]
    | some p =>
        by_cases h : truthyOpt p.sessionId && truthyOpt p.publicKey &&
            truthyOpt p.timestamp
        · simp only [parsePairingCode, if_pos h, Option.isSome_some,
            true_iff]
          refine ⟨p, rfl, ?_, ?_, ?_⟩ <;>
            simp only [Bool.and_eq_true] at h <;> tauto
        · simp only [parsePairingCode, if_neg h, Option.isSome_none]
          constructor
          · intro hft; exact absurd hft (by decide)
          · rintro ⟨p', hp', h1, h2, h3⟩
            cases hp'
            exact absurd (by simp [h1, h2, h3]) h
  · simp only [parsePairingCode, pairingJsonOf]
    rw [if_pos (by simp [truthyOpt, JsValue.truthy, hs, hp, ht])]

theorem c9_parse_pairing_amended_witness :
    ("a" : String) ≠ "" ∧ ("b" : String) ≠ "" ∧ (5 : Int) ≠ 0 ∧
    (((parsePairingCode (some (pairingJsonOf ⟨"a", "b", 5⟩))).isSome ↔
      ∃ p, some (pairingJsonOf ⟨"a", "b", 5⟩) = some p ∧
        truthyOpt p.sessionId = true ∧ truthyOpt p.publicKey = true ∧
        truthyOpt p.timestamp = true) ∧
    parsePairingCode (some (pairingJsonOf ⟨"a", "b", 5⟩)) =
      some (pairingJsonOf ⟨"a", "b", 5⟩)) :=
  ⟨by decide, by decide, by decide,
    c9_parse_pairing_amended (some (pairingJsonOf ⟨"a", "b", 5⟩))
      ⟨"a", "b", 5⟩ (by decide) (by decide) (by decide)⟩

/-! ### Tmux capture (`TmuxCapture` in `packages/cli/src/tmux/capture.ts`)

The pane contents returned by `capturePane` are inputs to the model (the
subprocess call is external); `start` and `poll` mirror the source methods,
returning the new state together with the emitted `OutputEvent`, if any. -/

structure OutputEvent where
  seq : Nat
  content : String
  timestamp : Int
deriving DecidableEq, Repr

structure CaptureState where
  running : Bool
  seq : Nat
  lastContent : String
deriving DecidableEq, Repr

/-- Constructor state of `TmuxCapture`: not running, `seq = 0`, empty
`lastContent`. -/
def initCapture : CaptureState := { running := false, seq := 0, lastContent := "" }

/-- Mirror of `TmuxCapture.start`: ignore when already running; otherwise
record the captured snapshot and emit it as the initial event when it is
non-empty (JS truthiness of the captured string). -/
def startCapture (st : CaptureState) (captured : String) (now : Int) :
    CaptureState × Option OutputEvent :=
  if st.running then (st, none)
  else
    let st1 := { st with running := true, lastContent := captured }
    if captured ≠ "" then
      ({ st1 with seq := st1.seq + 1 },
        some { seq := st1.seq + 1, content := captured, timestamp := now })
    else (st1, none)

/-- Mirror of `TmuxCapture.poll`: no-op unless running; emit a new event
exactly when the captured snapshot differs from the previous one. -/
def pollCapture (st : CaptureState) (current : String) (now : Int) :
    CaptureState × Option OutputEvent :=
  if st.running = false then (st, none)
  else if current ≠ st.lastContent then
    ({ st with seq := st.seq + 1, lastContent := current },
      some { seq := st.seq + 1, content := current, timestamp := now })
  else (st, none)

/-- Run a sequence of polls; returns the final state and all emitted events
in order. -/
def runPolls (st : CaptureState) : List (String × Int) → CaptureState × List OutputEvent
  | [] => (st, [])
  | (c, t) :: rest =>
      let p := pollCapture st c t
      let r := runPolls p.1 rest
      (r.1, p.2.toList ++ r.2)

/-- All events emitted from `start` followed by a sequence of polls, starting
from the constructor state. -/
def captureTrace (captured : String) (t0 : Int) (ins : List (String × Int)) :
    List OutputEvent :=
  let s := startCapture initCapture captured t0
  s.2.toList ++ (runPolls s.1 ins).2

theorem pollCapture_running (st : CaptureState) (c : String) (t : Int) :
    (pollCapture st c t).1.running = st.running := by
  unfold pollCapture
  split
  · rfl
  · split <;> rfl

theorem runPolls_seqs (st : CaptureState) (hrun : st.running = true) :
    ∀ ins : List (String × Int),
      ((runPolls st ins).2.map OutputEvent.seq) =
        List.range' (st.seq + 1) (runPolls st ins).2.length := by
  intro ins
  induction ins generalizing st with
  | nil => simp [runPolls]
  | cons p rest ih =>
      obtain ⟨c, t⟩ := p
      simp only [runPolls]
      rcases eq_or_ne c st.lastContent with hd | hd
      · have hp : pollCapture st c t = (st, none) := by
          unfold pollCapture
          rw [hrun]
          simp [hd]
        rw [hp]
        simpa using ih st hrun
      · have hp : pollCapture st c t =
            ({ st with seq := st.seq + 1, lastContent := c },
              some { seq := st.seq + 1, content := c, timestamp := t }) := by
          unfold pollCapture
          rw [hrun]
          simp [hd]
        rw [hp]
        have ih2 := ih { st with seq := st.seq + 1, lastContent := c }
          (by simpa using hrun)
        simp only [Option.toList_some, List.cons_append, List.nil_append,
          List.map_cons, List.length_cons, ih2]
        rw [List.range'_succ]

/-- C5: while running, a poll emits an event iff the captured snapshot
differs from the previous one; an emitted event's `seq` is exactly one more
than the previous value; a second poll with the same content never emits a
second frame; and over any full trace from the constructor state the
emitted sequence numbers are exactly `1, 2, 3, ...` (in particular the
first emitted event has `seq = 1`). -/
theorem c5_capture_seq_spec (st : CaptureState) (c captured : String)
    (t t2 t0 : Int) (ins : List (String × Int)) (hrun : st.running = true) :
    ((pollCapture st c t).2 ≠ none ↔ c ≠ st.lastContent) ∧
    (∀ e, (pollCapture st c t).2 = some e → e.seq = st.seq + 1) ∧
    ((pollCapture (pollCapture st c t).1 c t2).2 = none) ∧
    ((captureTrace captured t0 ins).map OutputEvent.seq =
      List.range' 1 (captureTrace captured t0 ins).length) := by
  refine ⟨?_, ?_, ?_, ?_⟩
  · unfold pollCapture
    rw [hrun]
    rcases eq_or_ne c st.lastContent with hd | hd
    · simp [hd]
    · simp [hd]
  · intro e he
    unfold pollCapture at he
    rw [hrun] at he
    rcases eq_or_ne c st.lastContent with hd | hd
    · simp [hd] at he
    · rw [if_neg (by decide), if_pos hd] at he
      simp only [Option.some.injEq] at he
      rw [← he]
  · unfold pollCapture
    rw [hrun]
    rcases eq_or_ne c st.lastContent with hd | hd
    · subst hd
      simp [hrun]
    · simp [hd, hrun]
  · unfold captureTrace startCapture
    simp only [initCapture]
    rcases eq_or_ne captured "" with hc | hc
    · subst hc
      rw [if_neg (by decide), if_neg (by decide)]
      have hs := runPolls_seqs
        { running := true, seq := 0, lastContent := "" } rfl ins
      simpa using hs
    · rw [if_neg (by decide), if_pos hc]
      have hs := runPolls_seqs
        { running := true, seq := 1, lastContent := captured } rfl ins
      simp only [Option.toList_some, List.cons_append, List.nil_append,
        List.map_cons, List.length_cons, hs]
      rw [List.range'_succ]

theorem c5_capture_seq_spec_witness :
    ({ running := true, seq := 3, lastContent := "x" } : CaptureState).running
        = true ∧
    (((pollCapture ⟨true, 3, "x"⟩ "y" 10).2 ≠ none ↔ "y" ≠ "x") ∧
      (∀ e, (pollCapture ⟨true, 3, "x"⟩ "y" 10).2 = some e → e.seq = 3 + 1) ∧
      ((pollCapture (pollCapture ⟨true, 3, "x"⟩ "y" 10).1 "y" 11).2 = none) ∧
      ((captureTrace "a" 0 [("b", 1), ("b", 2)]).map OutputEvent.seq =
        List.range' 1 (captureTrace "a" 0 [("b", 1), ("b", 2)]).length)) :=
  ⟨rfl, c5_capture_seq_spec ⟨true, 3, "x"⟩ "y" "a" 10 11 0
    [("b", 1), ("b", 2)] rfl⟩

/-! ### Relay server session state

Mirrors the session data model and socket handlers of the relay server
(`main` in the server entry point).  JS `Map`s become association lists in
insertion order; socket emissions become an explicit list of `Emit` values;
`Date.now()` becomes an explicit `now : Int` argument. -/

inductive ClientType
  | cli
  | viewer
deriving DecidableEq, Repr

structure Viewer where
  socketId : String
  publicKey : String
  nickname : Option String
deriving DecidableEq, Repr

structure ControlLock where
  holderId : String
  holderNickname : Option String
  acquiredAt : Int
  lastInputAt : Int
deriving DecidableEq, Repr

structure EncryptedOutputEvent where
  viewerId : String
  encrypted : EncryptedMessage
  seq : Nat
  timestamp : Int
deriving DecidableEq, Repr

structure Session where
  id : String
  userId : Option String
  cliSocketId : Option String
  cliPublicKey : Option String
  daemonSocketId : Option String
  viewers : List (String × Viewer)
  lastOutput : Option OutputEvent
  outputHistory : List OutputEvent
  encryptedHistory : List EncryptedOutputEvent
  encrypted : Bool
  controlLock : Option ControlLock
  createdAt : Int
deriving DecidableEq, Repr

/-- Control-lock idle timeout in milliseconds (`CONTROL_LOCK_TIMEOUT`). -/
def CONTROL_LOCK_TIMEOUT : Int := 30000

/-- Fresh session record as created by the connection handler. -/
def newSession (id : String) (userId : Option String) (now : Int) : Session :=
  { id := id, userId := userId, cliSocketId := none, cliPublicKey := none,
    daemonSocketId := none, viewers := [], lastOutput := none,
    outputHistory := [], encryptedHistory := [], encrypted := false,
    controlLock := none, createdAt := now }

/-- Message payloads the relay emits towards sockets or rooms. -/
inductive RelayMsg
  | outputMsg (event : OutputEvent)
  | encryptedOutputMsg (encrypted : EncryptedMessage) (seq : Nat)
      (timestamp : Int)
  | inputRejected (reason : String)
  | controlStatus (locked : Bool) (holderId holderNickname : Option String)
      (acquiredAt : Option Int)
  | controlDenied (reason : String) (holderId : String)
      (holderNickname : Option String)
  | inputFwd (keys ty : String)
  | encryptedInputFwd (viewerId : String) (encrypted : EncryptedMessage)
  | errorMsg (message : String)
  | cliStatus (connected : Bool) (publicKey : Option String)
      (encrypted : Bool)
  | viewerJoined (viewerId publicKey : String)
  | viewerLeft (viewerId : String)
  | historyMsg (events : List OutputEvent)
  | encryptedHistoryMsg (events : List EncryptedOutputEvent)
deriving DecidableEq, Repr

/-- Emission target: a single socket (`io.to(socketId)` / `socket.emit`),
the whole session room (`io.to`), or the room minus the sender
(`socket.to`). -/
inductive Target
  | socket (id : String)
  | room (sessionId : String)
  | roomExceptSender (sessionId senderId : String)
deriving DecidableEq, Repr

structure Emit where
  target : Target
  msg : RelayMsg
deriving DecidableEq, Repr

/-- Mirror of `broadcastControlStatus`: the control-status payload for the
session's current lock, sent to the session room. -/
def controlStatusOf (s : Session) : RelayMsg :=
  match s.controlLock with
  | some lock =>
      .controlStatus true (some lock.holderId) lock.holderNickname
        (some lock.acquiredAt)
  | none => .controlStatus false none none none

def broadcastControl (s : Session) : Emit :=
  { target := .room s.id, msg := controlStatusOf s }

/-- Mirror of the `clientType === 'cli'` branch of the connection handler:
bind (or replace) the producer connection and broadcast `cli-status`. -/
def connectCli (socketId : String) (publicKey : Option String) (s : Session) :
    Session × List Emit :=
  let s1 := { s with
              cliSocketId := some socketId
              cliPublicKey := publicKey
              encrypted := publicKey.isSome }
  (s1, [⟨.room s.id, .cliStatus true s1.cliPublicKey s1.encrypted⟩])

/-- JS `Map.set`: replace the value under an existing key in place, or
append a new binding. -/
def mapSet (l : List (String × Viewer)) (k : String) (v : Viewer) :
    List (String × Viewer) :=
  if (l.lookup k).isSome then
    l.map (fun p => if p.1 == k then (k, v) else p)
  else l ++ [(k, v)]

/-- Mirror of the viewer branch of the connection handler: record the
viewer, notify the producer (`viewer-joined`) when the session is encrypted
and a producer with a key is present, replay `lastOutput` when unencrypted,
send `cli-status` to the new viewer, then the control status to the room. -/
def connectViewer (socketId : String) (publicKey nickname : Option String)
    (s : Session) : Session × List Emit :=
  let viewer : Viewer := { socketId := socketId
                           publicKey := publicKey.getD ""
                           nickname := nickname }
  let s1 := { s with viewers := mapSet s.viewers socketId viewer }
  let joinEmits :=
    match s1.encrypted, s1.cliSocketId, publicKey with
    | true, some cid, some pk =>
        [⟨Target.socket cid, RelayMsg.viewerJoined socketId pk⟩]
    | _, _, _ => []
  let replayEmits :=
    match s1.encrypted, s1.lastOutput with
    | false, some ev => [⟨Target.socket socketId, RelayMsg.outputMsg ev⟩]
    | _, _ => []
  let statusEmit : Emit :=
    ⟨.socket socketId,
      .cliStatus s1.cliSocketId.isSome s1.cliPublicKey s1.encrypted⟩
  (s1, joinEmits ++ replayEmits ++ [statusEmit, broadcastControl s1])

/-- Grant the control lock to the requesting viewer and broadcast. -/
def grantControl (s : Session) (socketId : String) (viewer : Viewer)
    (now : Int) : Session × List Emit :=
  let s1 := { s with
              controlLock := some { holderId := socketId
                                    holderNickname := viewer.nickname
                                    acquiredAt := now
                                    lastInputAt := now } }
  (s1, [broadcastControl s1])

/-- Mirror of `socket.on('request-control')`. -/
def handleRequestControl (ct : ClientType) (socketId : String) (now : Int)
    (s : Session) : Session × List Emit :=
  if ct = .cli then (s, [])
  else
    match s.viewers.lookup socketId with
    | none => (s, [])
    | some viewer =>
        match s.controlLock with
        | some lock =>
            if now - lock.lastInputAt < CONTROL_LOCK_TIMEOUT ∧
                lock.holderId ≠ socketId then
              (s, [⟨.socket socketId,
                .controlDenied "locked" lock.holderId lock.holderNickname⟩])
            else grantControl s socketId viewer now
        | none => grantControl s socketId viewer now

/-- Mirror of `socket.on('release-control')`. -/
def handleReleaseControl (ct : ClientType) (socketId : String) (s : Session) :
    Session × List Emit :=
  if ct = .cli then (s, [])
  else
    match s.controlLock with
    | some lock =>
        if lock.holderId = socketId then
          let s1 := { s with controlLock := none }
          (s1, [broadcastControl s1])
        else (s, [])
    | none => (s, [])

/-- Push onto a history ring: append, then evict the oldest entry when the
length exceeds 100 (`push` + `shift`). -/
def pushCapped {α : Type} (l : List α) (e : α) : List α :=
  if 100 < (l ++ [e]).length then (l ++ [e]).drop 1 else l ++ [e]

/-- Mirror of `socket.on('output')` (unencrypted output from the CLI). -/
def handleOutput (ct : ClientType) (socketId : String) (s : Session)
    (event : OutputEvent) : Session × List Emit :=
  if ct ≠ .cli then (s, [])
  else
    let s1 := { s with
                lastOutput := some event
                outputHistory := pushCapped s.outputHistory event }
    (s1, [⟨.roomExceptSender s.id socketId, .outputMsg event⟩])

/-- Mirror of `socket.on('encrypted-output')`: route the envelope to exactly
the named viewer, touching no session state. -/
def handleEncryptedOutput (ct : ClientType) (s : Session)
    (data : EncryptedOutputEvent) : Session × List Emit :=
  if ct ≠ .cli then (s, [])
  else
    (s, [⟨.socket data.viewerId,
      .encryptedOutputMsg data.encrypted data.seq data.timestamp⟩])

/-- Mirror of `socket.on('output-history')`: append the encrypted frame to
the encrypted ring, evicting the oldest past 100. -/
def handleOutputHistory (ct : ClientType) (s : Session)
    (encrypted : EncryptedMessage) (seq : Nat) (timestamp : Int) :
    Session × List Emit :=
  if ct ≠ .cli then (s, [])
  else
    ({ s with
       encryptedHistory := pushCapped s.encryptedHistory
         { viewerId := ""
           encrypted := encrypted
           seq := seq
           timestamp := timestamp } }, [])

/-- Control-lock gate shared by the two input handlers: reject when a live
lock is held by someone else, clear an expired lock (broadcasting the new
status) and fall through, otherwise fall through.  The boolean is true when
the message may proceed to forwarding. -/
def inputLockStep (socketId : String) (now : Int) (s : Session) :
    Session × List Emit × Bool :=
  match s.controlLock with
  | some lock =>
      if lock.holderId ≠ socketId then
        if now - lock.lastInputAt < CONTROL_LOCK_TIMEOUT then
          (s, [⟨.socket socketId, .inputRejected "not-controller"⟩], false)
        else
          let s1 := { s with controlLock := none }
          (s1, [broadcastControl s1], true)
      else (s, [], true)
  | none => (s, [], true)

/-- Holder touch shared by the two input handlers: a holder's accepted input
updates `lastInputAt`. -/
def inputTouchStep (socketId : String) (now : Int) (s : Session) : Session :=
  match s.controlLock with
  | some lock =>
      if lock.holderId = socketId then
        { s with controlLock := some { lock with lastInputAt := now } }
      else s
  | none => s

/-- Mirror of `socket.on('input')` (unencrypted input from a viewer). -/
def handleInput (ct : ClientType) (socketId : String) (now : Int)
    (s : Session) (keys ty : String) : Session × List Emit :=
  if ct = .cli then (s, [])
  else
    let step := inputLockStep socketId now s
    if step.2.2 = false then (step.1, step.2.1)
    else
      let s2 := inputTouchStep socketId now step.1
      match s2.cliSocketId with
      | some cid =>
          (s2, step.2.1 ++ [⟨.socket cid, .inputFwd keys ty⟩])
      | none =>
          (s2, step.2.1 ++ [⟨.socket socketId,
            .errorMsg "CLI not connected"⟩])

/-- Mirror of `socket.on('encrypted-input')`. -/
def handleEncryptedInput (ct : ClientType) (socketId : String) (now : Int)
    (s : Session) (encrypted : EncryptedMessage) : Session × List Emit :=
  if ct = .cli then (s, [])
  else
    let step := inputLockStep socketId now s
    if step.2.2 = false then (step.1, step.2.1)
    else
      let s2 := inputTouchStep socketId now step.1
      match s2.cliSocketId with
      | some cid =>
          (s2, step.2.1 ++ [⟨.socket cid,
            .encryptedInputFwd socketId encrypted⟩])
      | none =>
          (s2, step.2.1 ++ [⟨.socket socketId,
            .errorMsg "CLI not connected"⟩])

/-- Mirror of `socket.on('get-history')`. -/
def handleGetHistory (socketId : String) (s : Session) :
    Session × List Emit :=
  if s.encrypted then
    (s, [⟨.socket socketId, .encryptedHistoryMsg s.encryptedHistory⟩])
  else
    (s, [⟨.socket socketId, .historyMsg s.outputHistory⟩])

/-- Reap timer scheduled by the disconnect handler (`setTimeout`, 60 s). -/
structure ReapTimer where
  sessionId : String
  delayMs : Int
deriving DecidableEq, Repr

/-- Lock-release part of the viewer branch of the disconnect handler: when
the departing socket held the control lock, clear it and broadcast. -/
def disconnectLockStep (socketId : String) (s : Session) :
    Session × List Emit :=
  match s.controlLock with
  | some lock =>
      if lock.holderId = socketId then
        ({ s with controlLock := none },
          [broadcastControl { s with controlLock := none }])
      else (s, [])
  | none => (s, [])

/-- Mirror of `socket.on('disconnect')` for cli/viewer connections: the
producer branch applies only when the disconnecting socket is the currently
bound producer; every other disconnect takes the viewer branch (release a
held lock, notify the producer with `viewer-left`, drop the socket from the
viewers map).  A reap timer for the session is always scheduled. -/
def handleDisconnect (ct : ClientType) (socketId : String) (s : Session) :
    Session × List Emit × ReapTimer :=
  if ct = .cli ∧ s.cliSocketId = some socketId then
    ({ s with cliSocketId := none, cliPublicKey := none },
      [⟨.room s.id, .cliStatus false none s.encrypted⟩],
      { sessionId := s.id, delayMs := 60000 })
  else
    ({ (disconnectLockStep socketId s).1 with
       viewers := (disconnectLockStep socketId s).1.viewers.eraseP
         (fun p => p.1 == socketId) },
      (match (disconnectLockStep socketId s).1.cliSocketId with
       | some cid => (disconnectLockStep socketId s).2 ++
           [⟨Target.socket cid, RelayMsg.viewerLeft socketId⟩]
       | none => (disconnectLockStep socketId s).2),
      { sessionId := s.id, delayMs := 60000 })

/-- Mirror of the reap-timer body: when it fires, the session is deleted
(`none`) exactly when it has no direct cli producer binding and no viewers.
-/
def reapStep (s : Session) : Option Session :=
  if s.cliSocketId = none ∧ s.viewers = [] then none else some s

/-- Mirror of the daemon `session-attached` handler's update branch for an
existing session. -/
def daemonAttach (daemonSocketId publicKey : String) (encrypted : Bool)
    (s : Session) : Session :=
  { s with
    daemonSocketId := some daemonSocketId
    cliPublicKey := some publicKey
    encrypted := encrypted }

/-- Mirror of the daemon `session-detached` handler. -/
def daemonDetach (daemonSocketId : String) (s : Session) : Session :=
  if s.daemonSocketId = some daemonSocketId then
    { s with daemonSocketId := none, cliPublicKey := none }
  else s

/-- One relay operation on a session: every connection-level or socket-level
handler of the relay that touches session state. -/
inductive RelayOp
  | opConnectCli (socketId : String) (publicKey : Option String)
  | opConnectViewer (socketId : String) (publicKey nickname : Option String)
  | opRequestControl (ct : ClientType) (socketId : String) (now : Int)
  | opReleaseControl (ct : ClientType) (socketId : String)
  | opOutput (ct : ClientType) (socketId : String) (event : OutputEvent)
  | opEncryptedOutput (ct : ClientType) (data : EncryptedOutputEvent)
  | opOutputHistory (ct : ClientType) (encrypted : EncryptedMessage)
      (seq : Nat) (timestamp : Int)
  | opInput (ct : ClientType) (socketId : String) (now : Int) (keys ty : String)
  | opEncryptedInput (ct : ClientType) (socketId : String) (now : Int)
      (encrypted : EncryptedMessage)
  | opGetHistory (socketId : String)
  | opDisconnect (ct : ClientType) (socketId : String)
  | opDaemonAttach (daemonSocketId publicKey : String) (encrypted : Bool)
  | opDaemonDetach (daemonSocketId : String)
deriving Repr

/-- State effect of one relay operation on a session. -/
def applyOp (s : Session) : RelayOp → Session
  | .opConnectCli sid pk => (connectCli sid pk s).1
  | .opConnectViewer sid pk nn => (connectViewer sid pk nn s).1
  | .opRequestControl ct sid now => (handleRequestControl ct sid now s).1
  | .opReleaseControl ct sid => (handleReleaseControl ct sid s).1
  | .opOutput ct sid ev => (handleOutput ct sid s ev).1
  | .opEncryptedOutput ct d => (handleEncryptedOutput ct s d).1
  | .opOutputHistory ct enc seq ts => (handleOutputHistory ct s enc seq ts).1
  | .opInput ct sid now keys ty => (handleInput ct sid now s keys ty).1
  | .opEncryptedInput ct sid now enc =>
      (handleEncryptedInput ct sid now s enc).1
  | .opGetHistory sid => (handleGetHistory sid s).1
  | .opDisconnect ct sid => (handleDisconnect ct sid s).1
  | .opDaemonAttach did pk enc => daemonAttach did pk enc s
  | .opDaemonDetach did => daemonDetach did s

/-- Apply a sequence of relay operations in order. -/
def applyOps (s : Session) (ops : List RelayOp) : Session :=
  ops.foldl applyOp s

theorem pushCapped_length_le {α : Type} (l : List α) (e : α)
    (h : l.length ≤ 100) : (pushCapped l e).length ≤ 100 := by
  unfold pushCapped
  split
  · simp only [List.length_drop, List.length_append, List.length_cons,
      List.length_nil]
    omega
  · next hlen =>
      simp only [List.length_append, List.length_cons, List.length_nil] at *
      omega

/-- Both history rings are bounded by 100 entries. -/
def HistBound (s : Session) : Prop :=
  s.outputHistory.length ≤ 100 ∧ s.encryptedHistory.length ≤ 100

theorem inputLockStep_hist (socketId : String) (now : Int) (s : Session) :
    (inputLockStep socketId now s).1.outputHistory = s.outputHistory ∧
    (inputLockStep socketId now s).1.encryptedHistory = s.encryptedHistory := by
  unfold inputLockStep
  repeat' split
  all_goals exact ⟨rfl, rfl⟩

theorem inputTouchStep_hist (socketId : String) (now : Int) (s : Session) :
    (inputTouchStep socketId now s).outputHistory = s.outputHistory ∧
    (inputTouchStep socketId now s).encryptedHistory = s.encryptedHistory := by
  unfold inputTouchStep
  repeat' split
  all_goals exact ⟨rfl, rfl⟩

theorem disconnectLockStep_hist (socketId : String) (s : Session) :
    (disconnectLockStep socketId s).1.outputHistory = s.outputHistory ∧
    (disconnectLockStep socketId s).1.encryptedHistory =
      s.encryptedHistory := by
  unfold disconnectLockStep
  repeat' split
  all_goals exact ⟨rfl, rfl⟩

theorem applyOp_histBound (s : Session) (op : RelayOp) (h : HistBound s) :
    HistBound (applyOp s op) := by
  obtain ⟨h1, h2⟩ := h
  cases op with
  | opConnectCli sid pk => exact ⟨h1, h2⟩
  | opConnectViewer sid pk nn => exact ⟨h1, h2⟩
  | opRequestControl ct sid now =>
      show HistBound (handleRequestControl ct sid now s).1
      unfold handleRequestControl
      repeat' split
      all_goals exact ⟨h1, h2⟩
  | opReleaseControl ct sid =>
      show HistBound (handleReleaseControl ct sid s).1
      unfold handleReleaseControl
      repeat' split
      all_goals exact ⟨h1, h2⟩
  | opOutput ct sid ev =>
      show HistBound (handleOutput ct sid s ev).1
      unfold handleOutput
      repeat' split
      all_goals
        first
        | exact ⟨h1, h2⟩
        | exact ⟨pushCapped_length_le _ _ h1, h2⟩
  | opEncryptedOutput ct d =>
      show HistBound (handleEncryptedOutput ct s d).1
      unfold handleEncryptedOutput
      repeat' split
      all_goals exact ⟨h1, h2⟩
  | opOutputHistory ct enc seq ts =>
      show HistBound (handleOutputHistory ct s enc seq ts).1
      unfold handleOutputHistory
      repeat' split
      all_goals
        first
        | exact ⟨h1, h2⟩
        | exact ⟨h1, pushCapped_length_le _ _ h2⟩
  | opInput ct sid now keys ty =>
      show HistBound (handleInput ct sid now s keys ty).1
      obtain ⟨e1, e2⟩ := inputLockStep_hist sid now s
      obtain ⟨f1, f2⟩ := inputTouchStep_hist sid now (inputLockStep sid now s).1
      simp only [handleInput]
      repeat' split
      all_goals
        first
        | exact ⟨h1, h2⟩
        | exact ⟨by rw [e1]; exact h1, by rw [e2]; exact h2⟩
        | exact ⟨by rw [f1, e1]; exact h1, by rw [f2, e2]; exact h2⟩
  | opEncryptedInput ct sid now enc =>
      show HistBound (handleEncryptedInput ct sid now s enc).1
      obtain ⟨e1, e2⟩ := inputLockStep_hist sid now s
      obtain ⟨f1, f2⟩ := inputTouchStep_hist sid now (inputLockStep sid now s).1
      simp only [handleEncryptedInput]
      repeat' split
      all_goals
        first
        | exact ⟨h1, h2⟩
        | exact ⟨by rw [e1]; exact h1, by rw [e2]; exact h2⟩
        | exact ⟨by rw [f1, e1]; exact h1, by rw [f2, e2]; exact h2⟩
  | opGetHistory sid =>
      show HistBound (handleGetHistory sid s).1
      unfold handleGetHistory
      repeat' split
      all_goals exact ⟨h1, h2⟩
  | opDisconnect ct sid =>
      show HistBound (handleDisconnect ct sid s).1
      obtain ⟨e1, e2⟩ := disconnectLockStep_hist sid s
      simp only [handleDisconnect]
      repeat' split
      all_goals
        first
        | exact ⟨h1, h2⟩
        | exact ⟨by rw [e1]; exact h1, by rw [e2]; exact h2⟩
  | opDaemonAttach did pk enc => exact ⟨h1, h2⟩
  | opDaemonDetach did =>
      show HistBound (daemonDetach did s)
      unfold daemonDetach
      repeat' split
      all_goals exact ⟨h1, h2⟩

/-- C6: after any sequence of relay operations starting from a freshly
created session, `outputHistory` and `encryptedHistory` each hold at most
100 entries; the `output` handler appends to `outputHistory` evicting the
oldest entry past 100 and the `output-history` handler does the same for
`encryptedHistory` (both via `pushCapped`). -/
theorem c6_history_ring_bound (id : String) (userId : Option String)
    (now : Int) (ops : List RelayOp) :
    (applyOps (newSession id userId now) ops).outputHistory.length ≤ 100 ∧
    (applyOps (newSession id userId now) ops).encryptedHistory.length ≤ 100 := by
  have hinit : HistBound (newSession id userId now) := by
    constructor <;> simp [newSession]
  have main : ∀ (l : List RelayOp) (s : Session), HistBound s →
      HistBound (applyOps s l) := by
    intro l
    induction l with
    | nil => intro s hs; exact hs
    | cons op rest ih =>
        intro s hs
        exact ih (applyOp s op) (applyOp_histBound s op hs)
  exact main ops (newSession id userId now) hinit

/-! ### Control-lock gating of viewer input (C1) -/

theorem inputLockStep_reject {s : Session} {lock : ControlLock}
    (sender : String) (now : Int) (hlock : s.controlLock = some lock)
    (hh : lock.holderId ≠ sender)
    (ht : now - lock.lastInputAt < CONTROL_LOCK_TIMEOUT) :
    inputLockStep sender now s =
      (s, [⟨.socket sender, .inputRejected "not-controller"⟩], false) := by
  unfold inputLockStep
  rw [hlock]
  simp [hh, ht]

theorem inputLockStep_expire {s : Session} {lock : ControlLock}
    (sender : String) (now : Int) (hlock : s.controlLock = some lock)
    (hh : lock.holderId ≠ sender)
    (ht : ¬now - lock.lastInputAt < CONTROL_LOCK_TIMEOUT) :
    inputLockStep sender now s =
      ({ s with controlLock := none },
        [⟨.room s.id, .controlStatus false none none none⟩], true) := by
  unfold inputLockStep
  rw [hlock]
  simp [hh, ht, broadcastControl, controlStatusOf]

theorem inputLockStep_holder {s : Session} {lock : ControlLock}
    (sender : String) (now : Int) (hlock : s.controlLock = some lock)
    (hh : lock.holderId = sender) :
    inputLockStep sender now s = (s, [], true) := by
  unfold inputLockStep
  rw [hlock]
  simp [hh]

theorem inputTouchStep_none {s : Session} (sender : String) (now : Int)
    (hlock : s.controlLock = none) : inputTouchStep sender now s = s := by
  unfold inputTouchStep
  rw [hlock]

theorem inputTouchStep_holder {s : Session} {lock : ControlLock}
    (sender : String) (now : Int) (hlock : s.controlLock = some lock)
    (hh : lock.holderId = sender) :
    inputTouchStep sender now s =
      { s with controlLock := some { lock with lastInputAt := now } } := by
  unfold inputTouchStep
  rw [hlock]
  simp [hh]

/-- C1: when the control lock is held by a different viewer and the holder's
`lastInputAt` is less than 30 s old, a viewer's `input` or `encrypted-input`
only draws `input-rejected` to the sender and nothing reaches the producer;
when the lock is held by a different viewer but 30 s or more idle, the relay
clears the lock, broadcasts the unlocked control status to the session, and
forwards the input to the producer; and the holder's own input updates
`lastInputAt` to `now` and is forwarded. -/
theorem c1_input_control_gate (s : Session) (sender p : String) (now : Int)
    (lock : ControlLock) (keys ty : String) (enc : EncryptedMessage)
    (hlock : s.controlLock = some lock) :
    (lock.holderId ≠ sender → now - lock.lastInputAt < CONTROL_LOCK_TIMEOUT →
      handleInput .viewer sender now s keys ty =
        (s, [⟨.socket sender, .inputRejected "not-controller"⟩]) ∧
      handleEncryptedInput .viewer sender now s enc =
        (s, [⟨.socket sender, .inputRejected "not-controller"⟩])) ∧
    (lock.holderId ≠ sender →
      CONTROL_LOCK_TIMEOUT ≤ now - lock.lastInputAt →
      s.cliSocketId = some p →
      handleInput .viewer sender now s keys ty =
        ({ s with controlLock := none },
          [⟨.room s.id, .controlStatus false none none none⟩,
           ⟨.socket p, .inputFwd keys ty⟩]) ∧
      handleEncryptedInput .viewer sender now s enc =
        ({ s with controlLock := none },
          [⟨.room s.id, .controlStatus false none none none⟩,
           ⟨.socket p, .encryptedInputFwd sender enc⟩])) ∧
    (lock.holderId = sender → s.cliSocketId = some p →
      handleInput .viewer sender now s keys ty =
        ({ s with controlLock := some { lock with lastInputAt := now } },
          [⟨.socket p, .inputFwd keys ty⟩]) ∧
      handleEncryptedInput .viewer sender now s enc =
        ({ s with controlLock := some { lock with lastInputAt := now } },
          [⟨.socket p, .encryptedInputFwd sender enc⟩])) := by
  refine ⟨?_, ?_, ?_⟩
  · intro hh ht
    constructor
    · simp only [handleInput, inputLockStep_reject sender now hlock hh ht]
      simp
    · simp only [handleEncryptedInput,
        inputLockStep_reject sender now hlock hh ht]
      simp
  · intro hh ht hcli
    have hexp := inputLockStep_expire sender now hlock hh (by omega)
    have htouch : inputTouchStep sender now { s with controlLock := none } =
        { s with controlLock := none } :=
      inputTouchStep_none sender now rfl
    constructor
    · simp only [handleInput, hexp, htouch]
      simp [hcli]
    · simp only [handleEncryptedInput, hexp, htouch]
      simp [hcli]
  · intro hh hcli
    have hstep := inputLockStep_holder sender now hlock hh
    have htouch := inputTouchStep_holder sender now hlock hh
    constructor
    · simp only [handleInput, hstep, htouch]
      simp [hcli]
    · simp only [handleEncryptedInput, hstep, htouch]
      simp [hcli]

/-- Concrete lock held by viewer `vA` since time 1000. -/
def demoLock : ControlLock :=
  { holderId := "vA", holderNickname := some "alice", acquiredAt := 1000,
    lastInputAt := 1000 }

/-- Concrete encrypted session with a producer, two viewers and `demoLock`.
-/
def demoSession : Session :=
  { id := "s1", userId := none, cliSocketId := some "cli1",
    cliPublicKey := some "PK", daemonSocketId := none,
    viewers := [("vA", ⟨"vA", "pkA", some "alice"⟩),
                ("vB", ⟨"vB", "pkB", none⟩)],
    lastOutput := none, outputHistory := [], encryptedHistory := [],
    encrypted := true, controlLock := some demoLock, createdAt := 0 }

/-- Concrete envelope for witnesses. -/
def demoEnc : EncryptedMessage := { nonce := "AA==", ciphertext := "AA==" }

theorem c1_input_control_gate_witness :
    demoSession.controlLock = some demoLock ∧
    (handleInput .viewer "vB" 2000 demoSession "k" "text" =
      (demoSession, [⟨.socket "vB", .inputRejected "not-controller"⟩])) ∧
    (handleInput .viewer "vB" 40000 demoSession "k" "text" =
      ({ demoSession with controlLock := none },
        [⟨.room "s1", .controlStatus false none none none⟩,
         ⟨.socket "cli1", .inputFwd "k" "text"⟩])) ∧
    (handleInput .viewer "vA" 2000 demoSession "k" "text" =
      ({ demoSession with
         controlLock := some { demoLock with lastInputAt := 2000 } },
        [⟨.socket "cli1", .inputFwd "k" "text"⟩])) :=
  ⟨rfl,
    ((c1_input_control_gate demoSession "vB" "cli1" 2000 demoLock "k" "text"
      demoEnc rfl).1 (by decide) (by decide)).1,
    ((c1_input_control_gate demoSession "vB" "cli1" 40000 demoLock "k" "text"
      demoEnc rfl).2.1 (by decide) (by decide) rfl).1,
    ((c1_input_control_gate demoSession "vA" "cli1" 2000 demoLock "k" "text"
      demoEnc rfl).2.2 (by decide) rfl).1⟩

/-! ### Control-lock acquisition (C4) -/

/-- C4: a viewer's `request-control` is granted — the lock becomes
`holderId = requester, holderNickname, acquiredAt = lastInputAt = now` and
`control-status` with those fields is broadcast to the whole session room —
exactly when there is no lock, or the lock has been idle for the 30 s
timeout, or the requester already holds it; otherwise the session is left
unchanged and only the requester receives
`control-denied (reason locked)` with the holder's identity. -/
theorem c4_request_control_grant_iff (s : Session) (req : String) (now : Int)
    (v : Viewer) (hv : s.viewers.lookup req = some v) :
    ((s.controlLock = none ∨
        (∃ lock, s.controlLock = some lock ∧
          (CONTROL_LOCK_TIMEOUT ≤ now - lock.lastInputAt ∨
            lock.holderId = req))) →
      handleRequestControl .viewer req now s =
        ({ s with
           controlLock := some { holderId := req
                                 holderNickname := v.nickname
                                 acquiredAt := now
                                 lastInputAt := now } },
          [⟨.room s.id,
            .controlStatus true (some req) v.nickname (some now)⟩])) ∧
    (∀ lock, s.controlLock = some lock →
      now - lock.lastInputAt < CONTROL_LOCK_TIMEOUT → lock.holderId ≠ req →
      handleRequestControl .viewer req now s =
        (s, [⟨.socket req,
          .controlDenied "locked" lock.holderId lock.holderNickname⟩])) := by
  constructor
  · intro hgrant
    rcases hgrant with hnone | ⟨lock, hsome, hc⟩
    · simp [handleRequestControl, hv, hnone, grantControl, broadcastControl,
        controlStatusOf]
    · have hcond : ¬(now - lock.lastInputAt < CONTROL_LOCK_TIMEOUT ∧
          lock.holderId ≠ req) := by
        rcases hc with hc | hc
        · intro hcontra
          omega
        · intro hcontra
          exact hcontra.2 hc
      simp [handleRequestControl, hv, hsome, hcond, grantControl,
        broadcastControl, controlStatusOf]
  · intro lock hsome hfresh hother
    simp [handleRequestControl, hv, hsome, hfresh, hother]

theorem c4_request_control_grant_iff_witness :
    demoSession.viewers.lookup "vB" = some ⟨"vB", "pkB", none⟩ ∧
    (handleRequestControl .viewer "vB" 40000 demoSession =
      ({ demoSession with
         controlLock := some { holderId := "vB"
                               holderNickname := none
                               acquiredAt := 40000
                               lastInputAt := 40000 } },
        [⟨.room "s1", .controlStatus true (some "vB") none (some 40000)⟩])) ∧
    (handleRequestControl .viewer "vB" 2000 demoSession =
      (demoSession, [⟨.socket "vB",
        .controlDenied "locked" "vA" (some "alice")⟩])) :=
  ⟨by decide,
    (c4_request_control_grant_iff demoSession "vB" 40000 ⟨"vB", "pkB", none⟩
      (by decide)).1 (Or.inr ⟨demoLock, rfl, Or.inl (by decide)⟩),
    (c4_request_control_grant_iff demoSession "vB" 2000 ⟨"vB", "pkB", none⟩
      (by decide)).2 demoLock rfl (by decide) (by decide)⟩

/-! ### Empty-session reaping (C7) -/

/-- Concrete session managed by a daemon: a daemon producer binding, no
direct cli connection, no viewers. -/
def demoDaemonSession : Session :=
  { id := "sd", userId := none, cliSocketId := none,
    cliPublicKey := some "DPK", daemonSocketId := some "d1", viewers := [],
    lastOutput := none, outputHistory := [], encryptedHistory := [],
    encrypted := true, controlLock := none, createdAt := 0 }

/-- C7 counterexample: when the reap timer fires on a session that still has
a daemon-managed producer binding (`daemonSocketId` set) but no direct cli
connection and no viewers, the relay deletes the session — contradicting the
claim that a daemon-managed producer binding prevents deletion. -/
theorem c7_reap_counterexample :
    demoDaemonSession.daemonSocketId = some "d1" ∧
    reapStep demoDaemonSession = none := by decide

/-- C7 (amended): every cli/viewer disconnect schedules a reap check 60 s
out, and when the timer fires the session is deleted exactly when it then
has no direct cli producer binding (`cliSocketId = none`) and no viewers; a
daemon-managed producer binding does not by itself prevent deletion. -/
theorem c7_reap_amended (ct : ClientType) (sid : String) (s t : Session) :
    ((handleDisconnect ct sid s).2.2 =
      { sessionId := s.id, delayMs := 60000 }) ∧
    (reapStep t = none ↔ (t.cliSocketId = none ∧ t.viewers = [])) ∧
    (reapStep t = some t ↔ ¬(t.cliSocketId = none ∧ t.viewers = [])) := by
  refine ⟨?_, ?_, ?_⟩
  · unfold handleDisconnect
    split <;> rfl
  · unfold reapStep
    split
    · next hcond => simp [hcond]
    · next hcond => simp [hcond]
  · unfold reapStep
    split
    · next hcond => simp [hcond]
    · next hcond => simp [hcond]

theorem c7_reap_amended_witness :
    ((handleDisconnect .viewer "vA" demoSession).2.2 =
      { sessionId := "s1", delayMs := 60000 }) ∧
    (reapStep demoDaemonSession = none ↔
      (demoDaemonSession.cliSocketId = none ∧
        demoDaemonSession.viewers = [])) ∧
    (reapStep demoDaemonSession = some demoDaemonSession ↔
      ¬(demoDaemonSession.cliSocketId = none ∧
        demoDaemonSession.viewers = [])) :=
  c7_reap_amended .viewer "vA" demoSession demoDaemonSession

/-! ### Disconnect of a superseded producer connection (C10) -/

theorem disconnectLockStep_cli (socketId : String) (s : Session) :
    (disconnectLockStep socketId s).1.cliSocketId = s.cliSocketId := by
  unfold disconnectLockStep
  repeat' split
  all_goals rfl

theorem disconnectLockStep_pk (socketId : String) (s : Session) :
    (disconnectLockStep socketId s).1.cliPublicKey = s.cliPublicKey := by
  unfold disconnectLockStep
  repeat' split
  all_goals rfl

theorem disconnectLockStep_viewers (socketId : String) (s : Session) :
    (disconnectLockStep socketId s).1.viewers = s.viewers := by
  unfold disconnectLockStep
  repeat' split
  all_goals rfl

theorem disconnectLockStep_no_cliStatus (socketId : String) (s : Session) :
    ∀ e ∈ (disconnectLockStep socketId s).2, ∀ b pk en,
      e.msg ≠ RelayMsg.cliStatus b pk en := by
  unfold disconnectLockStep
  repeat' split
  all_goals
    intro e he b pk en
    first
    | exact absurd he (List.not_mem_nil e)
    | (rw [List.mem_singleton] at he
       subst he
       simp [broadcastControl, controlStatusOf])

/-- C10: when the producer binding has been replaced and the superseded old
producer connection disconnects, the disconnect handler takes the viewer
branch: producer fields stay bound to the new producer, the old socket id is
dropped from the viewers map, `viewer-left` for the old id is sent to the
currently bound producer, and no `cli-status` message is emitted. -/
theorem c10_superseded_producer_disconnect (s : Session) (old p : String)
    (hcli : s.cliSocketId = some p) (hne : p ≠ old) :
    (handleDisconnect .cli old s).1.cliSocketId = some p ∧
    (handleDisconnect .cli old s).1.cliPublicKey = s.cliPublicKey ∧
    (handleDisconnect .cli old s).1.viewers =
      s.viewers.eraseP (fun q => q.1 == old) ∧
    (⟨Target.socket p, RelayMsg.viewerLeft old⟩ : Emit) ∈
      (handleDisconnect .cli old s).2.1 ∧
    (∀ e ∈ (handleDisconnect .cli old s).2.1, ∀ b pk en,
      e.msg ≠ RelayMsg.cliStatus b pk en) := by
  have hcond : ¬(ClientType.cli = ClientType.cli ∧
      s.cliSocketId = some old) := by
    rintro ⟨-, hc⟩
    rw [hcli] at hc
    exact hne (by injection hc)
  have hc2 : (disconnectLockStep old s).1.cliSocketId = some p := by
    rw [disconnectLockStep_cli, hcli]
  unfold handleDisconnect
  rw [if_neg hcond, hc2]
  refine ⟨rfl, disconnectLockStep_pk old s, ?_, ?_, ?_⟩
  · simp only [disconnectLockStep_viewers]
  · simp
  · intro e he b pk en
    simp only [List.mem_append, List.mem_singleton] at he
    rcases he with he | he
    · exact disconnectLockStep_no_cliStatus old s e he b pk en
    · subst he
      simp

/-- C10 witness data: a session whose producer was replaced by `cli2` while
the superseded producer connection `cli1` is still open. -/
def demoReplacedSession : Session :=
  { id := "s2", userId := none, cliSocketId := some "cli2",
    cliPublicKey := some "PK2", daemonSocketId := none,
    viewers := [("vA", ⟨"vA", "pkA", none⟩)], lastOutput := none,
    outputHistory := [], encryptedHistory := [], encrypted := true,
    controlLock := none, createdAt := 0 }

theorem c10_superseded_producer_disconnect_witness :
    demoReplacedSession.cliSocketId = some "cli2" ∧ ("cli2" : String) ≠ "cli1" ∧
    ((handleDisconnect .cli "cli1" demoReplacedSession).1.cliSocketId =
        some "cli2" ∧
      (handleDisconnect .cli "cli1" demoReplacedSession).1.cliPublicKey =
        demoReplacedSession.cliPublicKey ∧
      (handleDisconnect .cli "cli1" demoReplacedSession).1.viewers =
        demoReplacedSession.viewers.eraseP (fun q => q.1 == "cli1") ∧
      (⟨Target.socket "cli2", RelayMsg.viewerLeft "cli1"⟩ : Emit) ∈
        (handleDisconnect .cli "cli1" demoReplacedSession).2.1 ∧
      (∀ e ∈ (handleDisconnect .cli "cli1" demoReplacedSession).2.1,
        ∀ b pk en, e.msg ≠ RelayMsg.cliStatus b pk en)) :=
  ⟨rfl, by decide,
    c10_superseded_producer_disconnect demoReplacedSession "cli1" "cli2" rfl
      (by decide)⟩

/-! ### Producer-side encrypted fan-out (`EncryptedWSClient`, C2)

Mirrors `EncryptedWSClient.sendEncryptedOutput`: cache the event, and while
connected send one `encrypted-output` per cached shared secret plus one
`output-history` under the first viewer's secret.  `JSON.stringify` is the
JS runtime's; `jsonOfOutputEvent` below models it for `OutputEvent`
payloads, and the per-message random nonces are passed explicitly. -/

/-- Lower-case hexadecimal digit. -/
def hexDigit (n : Nat) : Char :=
  if n < 10 then Char.ofNat (48 + n) else Char.ofNat (87 + n)

/-- JSON string escaping of one character (quote, backslash, controls). -/
def jsonEscapeChar (c : Char) : List Char :=
  if c = '"' then ['\\', '"']
  else if c = '\\' then ['\\', '\\']
  else if c.toNat < 32 then
    ['\\', 'u', '0', '0', hexDigit (c.toNat / 16), hexDigit (c.toNat % 16)]
  else [c]

/-- JSON string literal for a string value. -/
def jsonString (s : String) : String :=
  ⟨'"' :: (s.data.map jsonEscapeChar).flatten ++ ['"']⟩

/-- Modelled from the spec: `JSON.stringify` of an `OutputEvent` (the JSON
runtime is external to the repository). -/
def jsonOfOutputEvent (e : OutputEvent) : String :=
  "\x7b\"type\":\"output\",\"seq\":" ++ toString e.seq ++
    ",\"content\":" ++ jsonString e.content ++
    ",\"timestamp\":" ++ toString e.timestamp ++ "\x7d"

structure ProducerState where
  connected : Bool
  sharedSecrets : List (String × List Nat)
  lastOutputEvent : Option OutputEvent
deriving Repr

/-- Messages the producer emits towards the relay. -/
inductive ProducerEmit
  | encryptedOutput (viewerId : String) (encrypted : EncryptedMessage)
      (seq : Nat) (timestamp : Int)
  | outputHistory (encrypted : EncryptedMessage) (seq : Nat)
      (timestamp : Int)
deriving DecidableEq, Repr

/-- Mirror of `EncryptedWSClient.sendEncryptedOutput`. -/
def sendEncryptedOutput (st : ProducerState) (event : OutputEvent)
    (nonces : String → List Nat) (historyNonce : List Nat) :
    ProducerState × List ProducerEmit :=
  if st.connected = false then
    ({ st with lastOutputEvent := some event }, [])
  else
    ({ st with lastOutputEvent := some event },
      st.sharedSecrets.map (fun p =>
        ProducerEmit.encryptedOutput p.1
          (encrypt (jsonOfOutputEvent event) (nonces p.1) p.2)
          event.seq event.timestamp) ++
      (match st.sharedSecrets with
       | [] => []
       | (_, s0) :: _ =>
           [ProducerEmit.outputHistory
             (encrypt (jsonOfOutputEvent event) historyNonce s0)
             event.seq event.timestamp]))

/-- Projection selecting the `encrypted-output` emissions. -/
def encOutOf : ProducerEmit → Option (String × EncryptedMessage × Nat × Int)
  | .encryptedOutput vid enc seq ts => some (vid, enc, seq, ts)
  | .outputHistory _ _ _ => none

/-- C2: while connected, the producer sends exactly one `encrypted-output`
per entry of its shared-secrets map, carrying that viewer's id, the event's
`seq` and `timestamp`, and an envelope that decrypts under that viewer's
shared secret to the JSON of the same `OutputEvent`; and the relay's
`encrypted-output` handler forwards any such message to exactly the socket
named by `viewerId`, unchanged and without touching session state. -/
theorem c2_encrypted_output_fanout (st : ProducerState) (event : OutputEvent)
    (nonces : String → List Nat) (historyNonce : List Nat) (rs : Session)
    (hconn : st.connected = true)
    (hnv : ∀ vid, ValidBytes (nonces vid)) :
    ((sendEncryptedOutput st event nonces historyNonce).2.filterMap encOutOf =
      st.sharedSecrets.map (fun p =>
        (p.1, encrypt (jsonOfOutputEvent event) (nonces p.1) p.2,
          event.seq, event.timestamp))) ∧
    (∀ p ∈ st.sharedSecrets,
      decryptToString (encrypt (jsonOfOutputEvent event) (nonces p.1) p.2)
          p.2 = some (jsonOfOutputEvent event)) ∧
    (∀ d : EncryptedOutputEvent,
      handleEncryptedOutput .cli rs d =
        (rs, [⟨.socket d.viewerId,
          .encryptedOutputMsg d.encrypted d.seq d.timestamp⟩])) := by
  refine ⟨?_, ?_, ?_⟩
  · simp only [sendEncryptedOutput, hconn]
    rw [if_neg (by simp)]
    rw [List.filterMap_append]
    have h1 : (st.sharedSecrets.map (fun p =>
        ProducerEmit.encryptedOutput p.1
          (encrypt (jsonOfOutputEvent event) (nonces p.1) p.2)
          event.seq event.timestamp)).filterMap encOutOf =
        st.sharedSecrets.map (fun p =>
          (p.1, encrypt (jsonOfOutputEvent event) (nonces p.1) p.2,
            event.seq, event.timestamp)) := by
      induction st.sharedSecrets with
      | nil => rfl
      | cons q rest ih =>
          simp only [List.map_cons, List.filterMap_cons, encOutOf, ih]
    have h2 : ((match st.sharedSecrets with
       | [] => ([] : List ProducerEmit)
       | (_, s0) :: _ =>
           [ProducerEmit.outputHistory
             (encrypt (jsonOfOutputEvent event) historyNonce s0)
             event.seq event.timestamp])).filterMap encOutOf = [] := by
      cases st.sharedSecrets with
      | nil => rfl
      | cons q rest => cases q; rfl
    rw [h1, h2, List.append_nil]
  · intro p _
    exact decryptToString_encrypt (jsonOfOutputEvent event) p.2 (hnv p.1)
  · intro d
    simp [handleEncryptedOutput]

/-- Concrete producer state for the C2 witness. -/
def demoProducer : ProducerState :=
  { connected := true, sharedSecrets := [("vA", sampleKey)],
    lastOutputEvent := none }

/-- Concrete output event for the C2 witness. -/
def demoEvent : OutputEvent := { seq := 3, content := "hi", timestamp := 7 }

theorem sampleNonce_valid : ValidBytes sampleNonce := by decide

theorem c2_encrypted_output_fanout_witness :
    demoProducer.connected = true ∧
    ((sendEncryptedOutput demoProducer demoEvent (fun _ => sampleNonce)
        sampleNonce).2.filterMap encOutOf =
      [("vA", encrypt (jsonOfOutputEvent demoEvent) sampleNonce sampleKey,
        3, 7)]) ∧
    (decryptToString
        (encrypt (jsonOfOutputEvent demoEvent) sampleNonce sampleKey)
        sampleKey = some (jsonOfOutputEvent demoEvent)) ∧
    (handleEncryptedOutput .cli demoSession ⟨"vA", demoEnc, 3, 7⟩ =
      (demoSession, [⟨.socket "vA", .encryptedOutputMsg demoEnc 3 7⟩])) :=
  ⟨rfl,
    (c2_encrypted_output_fanout demoProducer demoEvent (fun _ => sampleNonce)
      sampleNonce demoSession rfl (fun _ => sampleNonce_valid)).1,
    (c2_encrypted_output_fanout demoProducer demoEvent (fun _ => sampleNonce)
      sampleNonce demoSession rfl (fun _ => sampleNonce_valid)).2.1
      ("vA", sampleKey) (by decide),
    (c2_encrypted_output_fanout demoProducer demoEvent (fun _ => sampleNonce)
      sampleNonce demoSession rfl (fun _ => sampleNonce_valid)).2.2
      ⟨"vA", demoEnc, 3, 7⟩⟩

/-! ### Daemon RPC over HTTP (`POST /api/daemon/command`, C8)

Mirrors the HTTP handler plus the `cli-response` socket handler and the
10 s `setTimeout`.  The asynchronous resolution race is modelled as a list
of events in arrival order: the timer firing, and `cli-response` messages
carrying a command id.  The first event that resolves the pending entry
determines the HTTP response. -/

structure CLIDaemon where
  socketId : String
  userId : Option String
  activeSessions : List String
  connectedAt : Int
deriving Repr

inductive CmdEvent
  | timeoutFire
  | cliResponse (commandId : String) (success : Bool) (data : String)
      (error : Option String)
deriving DecidableEq, Repr

inductive CmdResult
  | ok (data : String)
  | err (message : String)
deriving DecidableEq, Repr

/-- Mirror of the pending-command resolution: the timer body resolves
`error "Command timeout"` and removes the entry; a `cli-response` whose
`commandId` matches the pending entry resolves success with the data or
failure with the daemon's error (defaulting to "Command failed"); other
responses leave the entry pending. -/
def resolvePending (cmdId : String) : List CmdEvent → Option CmdResult
  | [] => none
  | .timeoutFire :: _ => some (.err "Command timeout")
  | .cliResponse rid ok data err :: rest =>
      if rid = cmdId then
        some (if ok then .ok data else .err (err.getD "Command failed"))
      else resolvePending cmdId rest

/-- Mirror of `POST /api/daemon/command`: missing command, no daemon, or
missing daemon socket answer immediately; otherwise the command is forwarded
to the first connected daemon with a 10 s timeout and the result comes from
the event stream.  Returns (HTTP result, forwarded
(daemonSocketId, commandId, command), scheduled timeout in ms). -/
def apiDaemonCommand (cmd : Option String) (daemons : List CLIDaemon)
    (socketExists : String → Bool) (cmdId : String)
    (events : List CmdEvent) :
    Option CmdResult × Option (String × String × String) × Option Int :=
  match cmd with
  | none => (some (.err "command is required"), none, none)
  | some c =>
      match daemons with
      | [] => (some (.err "No CLI daemon connected"), none, none)
      | d :: _ =>
          if socketExists d.socketId then
            (resolvePending cmdId events, some (d.socketId, cmdId, c),
              some 10000)
          else (some (.err "Daemon socket not found"), none, none)

/-- Events in `pre` that neither fire the timeout nor answer `cmdId` leave
the pending entry untouched. -/
theorem resolvePending_skip (cmdId : String) (pre : List CmdEvent)
    (tail : List CmdEvent)
    (hpre : ∀ e ∈ pre, e ≠ .timeoutFire ∧
      ∀ ok data err, e ≠ .cliResponse cmdId ok data err) :
    resolvePending cmdId (pre ++ tail) = resolvePending cmdId tail := by
  induction pre with
  | nil => rfl
  | cons e rest ih =>
      obtain ⟨hto, hcr⟩ := hpre e (by simp)
      cases e with
      | timeoutFire => exact absurd rfl hto
      | cliResponse rid ok data err =>
          have hne : rid ≠ cmdId := by
            intro hrid
            subst hrid
            exact hcr ok data err rfl
          simp only [List.cons_append, resolvePending, if_neg hne]
          exact ih (fun e he => hpre e (by simp [he]))

/-- C8: with no daemon connected, `POST /api/daemon/command` answers
`error "No CLI daemon connected"` and forwards nothing; otherwise it
forwards `(commandId, command)` to the first connected daemon with a 10 s
timeout, and answers success with the daemon's data when a matching success
response arrives before the timeout, the daemon's error message on a
matching failure response, and `error "Command timeout"` when the timer
fires first. -/
theorem c8_daemon_command (c cmdId : String) (daemons : List CLIDaemon)
    (socketExists : String → Bool) (events pre post : List CmdEvent)
    (d : CLIDaemon) :
    (apiDaemonCommand (some c) [] socketExists cmdId events =
      (some (.err "No CLI daemon connected"), none, none)) ∧
    (∀ rest, daemons = d :: rest → socketExists d.socketId = true →
      ((apiDaemonCommand (some c) daemons socketExists cmdId events).2 =
        (some (d.socketId, cmdId, c), some 10000)) ∧
      (∀ data err,
        events = pre ++ CmdEvent.cliResponse cmdId true data err :: post →
        (∀ e ∈ pre, e ≠ .timeoutFire ∧
          ∀ ok2 data2 err2, e ≠ .cliResponse cmdId ok2 data2 err2) →
        (apiDaemonCommand (some c) daemons socketExists cmdId events).1 =
          some (.ok data)) ∧
      (∀ data err,
        events = pre ++ CmdEvent.cliResponse cmdId false data err :: post →
        (∀ e ∈ pre, e ≠ .timeoutFire ∧
          ∀ ok2 data2 err2, e ≠ .cliResponse cmdId ok2 data2 err2) →
        (apiDaemonCommand (some c) daemons socketExists cmdId events).1 =
          some (.err (err.getD "Command failed"))) ∧
      (events = pre ++ CmdEvent.timeoutFire :: post →
        (∀ e ∈ pre, e ≠ .timeoutFire ∧
          ∀ ok2 data2 err2, e ≠ .cliResponse cmdId ok2 data2 err2) →
        (apiDaemonCommand (some c) daemons socketExists cmdId events).1 =
          some (.err "Command timeout"))) := by
  constructor
  · rfl
  · intro rest hd hsock
    subst hd
    refine ⟨?_, ?_, ?_, ?_⟩
    · simp only [apiDaemonCommand, if_pos hsock]
    · intro data err hev hpre
      subst hev
      simp only [apiDaemonCommand, if_pos hsock]
      rw [resolvePending_skip cmdId pre _ hpre]
      simp [resolvePending]
    · intro data err hev hpre
      subst hev
      simp only [apiDaemonCommand, if_pos hsock]
      rw [resolvePending_skip cmdId pre _ hpre]
      simp [resolvePending]
    · intro hev hpre
      subst hev
      simp only [apiDaemonCommand, if_pos hsock]
      rw [resolvePending_skip cmdId pre _ hpre]
      rfl

/-- Concrete daemon record for the C8 witness. -/
def demoDaemon : CLIDaemon :=
  { socketId := "d1", userId := none, activeSessions := ["sd"],
    connectedAt := 0 }

theorem c8_daemon_command_witness :
    ([demoDaemon] = demoDaemon :: []) ∧
    ((fun _ => true) demoDaemon.socketId = true) ∧
    ((apiDaemonCommand (some "list-sessions") [] (fun _ => true) "cmd1"
        [] = (some (.err "No CLI daemon connected"), none, none)) ∧
      ((apiDaemonCommand (some "list-sessions") [demoDaemon] (fun _ => true)
          "cmd1" [.cliResponse "cmd1" true "DATA" none]).2 =
        (some ("d1", "cmd1", "list-sessions"), some 10000)) ∧
      ((apiDaemonCommand (some "list-sessions") [demoDaemon] (fun _ => true)
          "cmd1" [.cliResponse "cmd1" true "DATA" none]).1 =
        some (.ok "DATA")) ∧
      ((apiDaemonCommand (some "list-sessions") [demoDaemon] (fun _ => true)
          "cmd1" [.timeoutFire]).1 = some (.err "Command timeout"))) :=
  ⟨rfl, rfl,
    (c8_daemon_command "list-sessions" "cmd1" [demoDaemon] (fun _ => true)
      [] [] [] demoDaemon).1,
    ((c8_daemon_command "list-sessions" "cmd1" [demoDaemon] (fun _ => true)
      [.cliResponse "cmd1" true "DATA" none] [] [] demoDaemon).2
      [] rfl rfl).1,
    ((c8_daemon_command "list-sessions" "cmd1" [demoDaemon] (fun _ => true)
      [.cliResponse "cmd1" true "DATA" none] [] [] demoDaemon).2
      [] rfl rfl).2.1 "DATA" none rfl (by simp),
    ((c8_daemon_command "list-sessions" "cmd1" [demoDaemon] (fun _ => true)
      [.timeoutFire] [] [] demoDaemon).2 [] rfl rfl).2.2.2 rfl (by simp)⟩

end Sohappy
